import Mathlib

/-!
# Verification of the finite-difference Fokker–Planck solver

Shallow embedding (over `ℚ`, modelling the real-number semantics of the
floating-point program) of the numerical core of
`lectures/scripts/lec4_kolmogorov_forward_equation_np.ipynb`:

* the uniform spatial grid `xs = np.linspace(x_min, x_max, N)` and the spacing
  `dx = xs[1] - xs[0]`;
* the SDE coefficients `drift(x) = a*x`, `dispersion(x) = b*x` of the
  geometric Brownian motion;
* the Fokker–Planck right-hand-side operator `fpk_operator`, built from
  `np.gradient` (central differences at interior points, one-sided differences
  at the two boundary points, the second derivative being the gradient applied
  twice) and numpy elementwise arithmetic;
* the explicit-Euler step `euler` and the time-marching loop `solve_fpk`
  which records the density after every one of the `T` steps;
* a fallible variant `fpk_operator_run` that models where numpy raises on a
  shape mismatch (`np.gradient` needs at least two samples; elementwise
  arithmetic on two arrays broadcasts only when the lengths agree or one of
  them is 1), surfaced through the specification's error taxonomy;
* an explicit-state variant `solver_run` of the time-marching loop, recording
  the caller's initial vector, the working vector and the accumulated history
  as separate state components, used to express the frame property that the
  loop never writes back into the caller's `p0`.

Specification-side definitions (`specDeriv`, `specDeriv2`, `spec_L_entry`,
`euler_seq`) transcribe the formulas of the natural-language specification and
are proved to agree with the code-side definitions.
-/

/-- Error taxonomy of the specification: `InvalidDomainError` for a malformed
grid request, `DimensionMismatchError` for a density vector whose length does
not match the grid. -/
inductive FPKError where
  | InvalidDomainError
  | DimensionMismatchError
deriving DecidableEq, Repr

/-- `np.linspace(x_min, x_max, N)`: `N` evenly spaced points from `x_min` to
`x_max`, point `i` being `x_min + i * (x_max - x_min)/(N - 1)`. -/
def linspace (x_min x_max : ℚ) (N : ℕ) : List ℚ :=
  List.ofFn (fun i : Fin N => x_min + (i.val : ℚ) * ((x_max - x_min) / ((N : ℚ) - 1)))

/-- The notebook builds the grid with a bare `np.linspace(-2, 6, N)` call.
There is no validation of the domain or of `N` anywhere around it, so grid
construction never signals an error; we embed it with the error channel of the
specification's taxonomy to make that statable. -/
def build_grid (x_min x_max : ℚ) (N : ℕ) : Except FPKError (List ℚ) :=
  Except.ok (linspace x_min x_max N)

/-- `dx = xs[1] - xs[0]`, exactly as the notebook derives the spacing. -/
def grid_dx (x_min x_max : ℚ) (N : ℕ) : ℚ :=
  (linspace x_min x_max N).getD 1 0 - (linspace x_min x_max N).getD 0 0

/-- `drift(x) = a * x`. -/
def drift (a x : ℚ) : ℚ := a * x

/-- `dispersion(x) = b * x`. -/
def dispersion (b x : ℚ) : ℚ := b * x

/-- `np.gradient(ps, dx)` with uniform spacing and the default `edge_order=1`:
central difference `(p[i+1] - p[i-1])/(2 dx)` at interior points, one-sided
differences `(p[1] - p[0])/dx` and `(p[n-1] - p[n-2])/dx` at the two ends. -/
def np_gradient (ps : List ℚ) (dx : ℚ) : List ℚ :=
  List.ofFn (fun i : Fin ps.length =>
    if i.val = 0 then (ps.getD 1 0 - ps.getD 0 0) / dx
    else if i.val = ps.length - 1 then
      (ps.getD (ps.length - 1) 0 - ps.getD (ps.length - 2) 0) / dx
    else (ps.getD (i.val + 1) 0 - ps.getD (i.val - 1) 0) / (2 * dx))

/-- numpy elementwise addition of two same-length arrays. -/
def vadd (u v : List ℚ) : List ℚ := List.zipWith (· + ·) u v

/-- numpy elementwise multiplication of two same-length arrays. -/
def vmul (u v : List ℚ) : List ℚ := List.zipWith (· * ·) u v

/-- numpy scalar-times-array. -/
def smul (c : ℚ) (u : List ℚ) : List ℚ := u.map (fun x => c * x)

/-- numpy elementwise negation. -/
def vneg (u : List ℚ) : List ℚ := u.map (fun x => -x)

/-- The Fokker–Planck operator of the notebook, transcribed line by line:

```
derivative_drift = a
gamma = dispersion(xs) ** 2
derivative_gamma = 2 * b ** 2 * xs
second_derivative_gamma = 2 * b ** 2
derivative_p = np.gradient(ps, dx)
second_derivative_p = np.gradient(np.gradient(ps, dx), dx)
part1 = -(derivative_drift * ps + drift(xs) * derivative_p)
return part1 + 0.5 * (second_derivative_gamma * ps
    + 2 * derivative_gamma * derivative_p + gamma * second_derivative_p)
```
-/
def fpk_operator (a b : ℚ) (xs : List ℚ) (dx : ℚ) (ps : List ℚ) : List ℚ :=
  let derivative_drift := a
  let gamma := xs.map (fun x => dispersion b x ^ 2)
  let derivative_gamma := xs.map (fun x => 2 * b ^ 2 * x)
  let second_derivative_gamma := 2 * b ^ 2
  let derivative_p := np_gradient ps dx
  let second_derivative_p := np_gradient (np_gradient ps dx) dx
  let part1 := vneg (vadd (smul derivative_drift ps) (vmul (xs.map (drift a)) derivative_p))
  vadd part1 (smul (1 / 2)
    (vadd (smul second_derivative_gamma ps)
      (vadd (smul 2 (vmul derivative_gamma derivative_p))
        (vmul gamma second_derivative_p))))

/-- One explicit-Euler step, `ps + fpk_operator(ps) * dt`. -/
def euler (a b : ℚ) (xs : List ℚ) (dx dt : ℚ) (ps : List ℚ) : List ℚ :=
  vadd ps ((fpk_operator a b xs dx ps).map (fun v => v * dt))

/-- The `for k in range(T)` loop of `solve_fpk`: at each iteration the working
density is replaced by its Euler update and the update is appended as the next
row of the history. -/
def solve_fpk_loop (a b : ℚ) (xs : List ℚ) (dx dt : ℚ) : ℕ → List ℚ → List (List ℚ)
  | 0, _ => []
  | Nat.succ k, ps => euler a b xs dx dt ps :: solve_fpk_loop a b xs dx dt k (euler a b xs dx dt ps)

/-- `solve_fpk(p0)`: run the Euler loop for `T` steps from (a copy of) `p0`
and return the `T`-row history. -/
def solve_fpk (a b : ℚ) (xs : List ℚ) (dx dt : ℚ) (T : ℕ) (p0 : List ℚ) : List (List ℚ) :=
  solve_fpk_loop a b xs dx dt T p0

/-- The recurrence of the specification: `p_0 = p0` and
`p_k = p_{k-1} + dt ⬝ L[p_{k-1}]`. -/
def euler_seq (a b : ℚ) (xs : List ℚ) (dx dt : ℚ) (p0 : List ℚ) : ℕ → List ℚ
  | 0 => p0
  | Nat.succ k =>
    vadd (euler_seq a b xs dx dt p0 k) (smul dt (fpk_operator a b xs dx (euler_seq a b xs dx dt p0 k)))

/-- numpy elementwise binary arithmetic on two 1-D arrays with broadcasting:
defined when the lengths agree or one of the operands has length 1; any other
shape pair raises (surfaced here through the specification's taxonomy as
`DimensionMismatchError`). -/
def np_bin (f : ℚ → ℚ → ℚ) (u v : List ℚ) : Except FPKError (List ℚ) :=
  if u.length = v.length then Except.ok (List.zipWith f u v)
  else if u.length = 1 then Except.ok (v.map (f (u.getD 0 0)))
  else if v.length = 1 then Except.ok (u.map (fun x => f x (v.getD 0 0)))
  else Except.error FPKError.DimensionMismatchError

/-- `np.gradient` with `edge_order=1` demands at least two samples; on a
shorter array it raises (again surfaced as `DimensionMismatchError`). -/
def np_gradient_checked (ps : List ℚ) (dx : ℚ) : Except FPKError (List ℚ) :=
  if 2 ≤ ps.length then Except.ok (np_gradient ps dx)
  else Except.error FPKError.DimensionMismatchError

/-- The Fokker–Planck operator with numpy's shape failures made explicit, in
the evaluation order of the notebook's expression: the two `np.gradient`
calls first, then `part1`, then the second-order part. Scalar-times-array and
negation never fail and stay as pure maps. -/
def fpk_operator_run (a b : ℚ) (xs : List ℚ) (dx : ℚ) (ps : List ℚ) :
    Except FPKError (List ℚ) := do
  let gamma := xs.map (fun x => dispersion b x ^ 2)
  let derivative_gamma := xs.map (fun x => 2 * b ^ 2 * x)
  let derivative_p ← np_gradient_checked ps dx
  let inner ← np_gradient_checked ps dx
  let second_derivative_p ← np_gradient_checked inner dx
  let t1 ← np_bin (· * ·) (xs.map (drift a)) derivative_p
  let part1sum ← np_bin (· + ·) (smul a ps) t1
  let part1 := vneg part1sum
  let t2 ← np_bin (· * ·) derivative_gamma derivative_p
  let t3 ← np_bin (· * ·) gamma second_derivative_p
  let t4 ← np_bin (· + ·) (smul 2 t2) t3
  let t5 ← np_bin (· + ·) (smul (2 * b ^ 2) ps) t4
  np_bin (· + ·) part1 (smul (1 / 2) t5)

/-- The state of the `solve_fpk` run, with the caller's argument array, the
loop's working array and the accumulated history as separate components. -/
structure SolverState where
  p0 : List ℚ
  ps : List ℚ
  pdfs : List (List ℚ)
deriving DecidableEq, Repr

/-- Entry into `solve_fpk`: `ps = p0.copy()` and an empty history (the
notebook preallocates `pdfs = np.zeros((T, N))` and fills row `k` at step
`k`; rows are equivalently accumulated in order here). -/
def solver_init (p0 : List ℚ) : SolverState :=
  { p0 := p0, ps := p0, pdfs := [] }

/-- One iteration of the loop body: `ps = euler(ps); pdfs[k, :] = ps`. Only
the working array and the history are written; the caller's `p0` component is
not assigned. -/
def solver_step (a b : ℚ) (xs : List ℚ) (dx dt : ℚ) (st : SolverState) : SolverState :=
  { st with ps := euler a b xs dx dt st.ps, pdfs := st.pdfs ++ [euler a b xs dx dt st.ps] }

/-- The loop `for k in range(T)` as iterated state transformation. -/
def solver_run (a b : ℚ) (xs : List ℚ) (dx dt : ℚ) : ℕ → SolverState → SolverState
  | 0, st => st
  | Nat.succ k, st => solver_run a b xs dx dt k (solver_step a b xs dx dt st)

/-- First-derivative scheme in the words of the specification: central
difference at interior points, a one-sided (forward/backward) difference at
the two boundary points. -/
def specDeriv (ps : List ℚ) (dx : ℚ) (i : ℕ) : ℚ :=
  if i = 0 then (ps.getD 1 0 - ps.getD 0 0) / dx
  else if i = ps.length - 1 then (ps.getD i 0 - ps.getD (i - 1) 0) / dx
  else (ps.getD (i + 1) 0 - ps.getD (i - 1) 0) / (2 * dx)

/-- Second derivative in the words of the specification: the same gradient
scheme applied twice in sequence (the gradient of the gradient, not a
dedicated second-order stencil). -/
def specDeriv2 (ps : List ℚ) (dx : ℚ) (i : ℕ) : ℚ :=
  specDeriv (List.ofFn (fun j : Fin ps.length => specDeriv ps dx j.val)) dx i

/-- The operator value at grid point `i` in the words of the specification:
`L[p] = −(drift'(x)·p + drift(x)·p') + ½(γ''(x)·p + 2γ'(x)·p' + γ(x)·p'')`
with `γ(x) = dispersion(x)²`, hence for `drift(x) = a·x`, `dispersion(x) = b·x`:
`drift' = a`, `γ' = 2b²x`, `γ'' = 2b²`. -/
def spec_L_entry (a b : ℚ) (xs : List ℚ) (dx : ℚ) (ps : List ℚ) (i : ℕ) : ℚ :=
  -(a * ps.getD i 0 + drift a (xs.getD i 0) * specDeriv ps dx i)
    + (1 / 2) * ((2 * b ^ 2) * ps.getD i 0
      + 2 * (2 * b ^ 2 * xs.getD i 0) * specDeriv ps dx i
      + dispersion b (xs.getD i 0) ^ 2 * specDeriv2 ps dx i)

/-! ## Helper lemmas -/

theorem ofFn_getD {n : ℕ} (f : Fin n → ℚ) (i : ℕ) (h : i < n) :
    (List.ofFn f).getD i 0 = f ⟨i, h⟩ := by
  rw [List.getD_eq_getElem _ _ (by simpa using h)]
  exact List.getElem_ofFn f i (by simpa using h)

theorem np_gradient_length (ps : List ℚ) (dx : ℚ) :
    (np_gradient ps dx).length = ps.length := by
  simp [np_gradient]

theorem specDeriv_eq_branch (ps : List ℚ) (dx : ℚ) (j : ℕ) :
    (if j = 0 then (ps.getD 1 0 - ps.getD 0 0) / dx
     else if j = ps.length - 1 then
       (ps.getD (ps.length - 1) 0 - ps.getD (ps.length - 2) 0) / dx
     else (ps.getD (j + 1) 0 - ps.getD (j - 1) 0) / (2 * dx)) = specDeriv ps dx j := by
  unfold specDeriv
  split_ifs with h1 h2
  · rfl
  · have e1 : ps.length - 1 - 1 = ps.length - 2 := by omega
    rw [h2, e1]
  · rfl

theorem np_gradient_eq_ofFn (ps : List ℚ) (dx : ℚ) :
    np_gradient ps dx = List.ofFn (fun j : Fin ps.length => specDeriv ps dx j.val) := by
  unfold np_gradient
  exact congrArg _ (funext fun j => specDeriv_eq_branch ps dx j.val)

theorem np_gradient_getD (ps : List ℚ) (dx : ℚ) (i : ℕ) (h : i < ps.length) :
    (np_gradient ps dx).getD i 0 = specDeriv ps dx i := by
  rw [np_gradient_eq_ofFn, ofFn_getD _ i h]

theorem np_gradient_sq_getD (ps : List ℚ) (dx : ℚ) (i : ℕ) (h : i < ps.length) :
    (np_gradient (np_gradient ps dx) dx).getD i 0 = specDeriv2 ps dx i := by
  rw [np_gradient_getD _ dx i (by rw [np_gradient_length]; exact h),
    np_gradient_eq_ofFn, specDeriv2]

theorem length_vadd (u v : List ℚ) : (vadd u v).length = min u.length v.length := by
  simp [vadd]

theorem length_vmul (u v : List ℚ) : (vmul u v).length = min u.length v.length := by
  simp [vmul]

theorem length_smul (c : ℚ) (u : List ℚ) : (smul c u).length = u.length := by
  simp [smul]

theorem length_vneg (u : List ℚ) : (vneg u).length = u.length := by
  simp [vneg]

theorem getD_vadd (u v : List ℚ) (i : ℕ) (hu : i < u.length) (hv : i < v.length) :
    (vadd u v).getD i 0 = u.getD i 0 + v.getD i 0 := by
  rw [List.getD_eq_getElem _ _ (by simp [vadd]; omega), List.getD_eq_getElem _ _ hu,
    List.getD_eq_getElem _ _ hv]
  simp [vadd]

theorem getD_vmul (u v : List ℚ) (i : ℕ) (hu : i < u.length) (hv : i < v.length) :
    (vmul u v).getD i 0 = u.getD i 0 * v.getD i 0 := by
  rw [List.getD_eq_getElem _ _ (by simp [vmul]; omega), List.getD_eq_getElem _ _ hu,
    List.getD_eq_getElem _ _ hv]
  simp [vmul]

theorem getD_smul (c : ℚ) (u : List ℚ) (i : ℕ) (hu : i < u.length) :
    (smul c u).getD i 0 = c * u.getD i 0 := by
  rw [List.getD_eq_getElem _ _ (by simp [smul]; omega), List.getD_eq_getElem _ _ hu]
  simp [smul]

theorem getD_vneg (u : List ℚ) (i : ℕ) (hu : i < u.length) :
    (vneg u).getD i 0 = -(u.getD i 0) := by
  rw [List.getD_eq_getElem _ _ (by simp [vneg]; omega), List.getD_eq_getElem _ _ hu]
  simp [vneg]

theorem getD_map_coeff (g : ℚ → ℚ) (u : List ℚ) (i : ℕ) (hu : i < u.length) :
    (u.map g).getD i 0 = g (u.getD i 0) := by
  rw [List.getD_eq_getElem _ _ (by simp; omega), List.getD_eq_getElem _ _ hu]
  simp

theorem fpk_operator_length (a b : ℚ) (xs : List ℚ) (dx : ℚ) (ps : List ℚ)
    (h : ps.length = xs.length) :
    (fpk_operator a b xs dx ps).length = xs.length := by
  simp [fpk_operator, length_vadd, length_vmul, length_smul, length_vneg,
    np_gradient_length, h]

theorem fpk_operator_getD (a b : ℚ) (xs : List ℚ) (dx : ℚ) (ps : List ℚ)
    (h : ps.length = xs.length) (i : ℕ) (hi : i < xs.length) :
    (fpk_operator a b xs dx ps).getD i 0 = spec_L_entry a b xs dx ps i := by
  have hp : i < ps.length := by omega
  have hg : i < (np_gradient ps dx).length := by rw [np_gradient_length]; omega
  have hgg : i < (np_gradient (np_gradient ps dx) dx).length := by
    rw [np_gradient_length, np_gradient_length]; omega
  have hxm : ∀ g : ℚ → ℚ, i < (xs.map g).length := by
    intro g; rw [List.length_map]; omega
  have hsm : ∀ c : ℚ, i < (smul c ps).length := by
    intro c; rw [length_smul]; omega
  unfold fpk_operator
  rw [getD_vadd _ _ i
      (by rw [length_vneg, length_vadd, length_smul, length_vmul, List.length_map,
        np_gradient_length]; omega)
      (by rw [length_smul, length_vadd, length_smul, length_vadd, length_smul,
        length_vmul, length_vmul, List.length_map, List.length_map,
        np_gradient_length, np_gradient_length]; omega)]
  rw [getD_vneg _ i
      (by rw [length_vadd, length_smul, length_vmul, List.length_map, np_gradient_length]; omega)]
  rw [getD_vadd _ _ i (hsm a)
      (by rw [length_vmul, List.length_map, np_gradient_length]; omega)]
  rw [getD_smul a ps i hp]
  rw [getD_vmul _ _ i (hxm (drift a)) hg]
  rw [getD_map_coeff (drift a) xs i hi]
  rw [getD_smul (1 / 2) _ i
      (by rw [length_vadd, length_smul, length_vadd, length_smul, length_vmul,
        length_vmul, List.length_map, List.length_map, np_gradient_length,
        np_gradient_length]; omega)]
  rw [getD_vadd _ _ i (hsm (2 * b ^ 2))
      (by rw [length_vadd, length_smul, length_vmul, length_vmul, List.length_map,
        List.length_map, np_gradient_length, np_gradient_length]; omega)]
  rw [getD_smul (2 * b ^ 2) ps i hp]
  rw [getD_vadd _ _ i
      (by rw [length_smul, length_vmul, List.length_map, np_gradient_length]; omega)
      (by rw [length_vmul, List.length_map, np_gradient_length, np_gradient_length]; omega)]
  rw [getD_smul 2 _ i (by rw [length_vmul, List.length_map, np_gradient_length]; omega)]
  rw [getD_vmul _ _ i (hxm fun x => 2 * b ^ 2 * x) hg]
  rw [getD_map_coeff (fun x => 2 * b ^ 2 * x) xs i hi]
  rw [getD_vmul _ _ i (hxm fun x => dispersion b x ^ 2) hgg]
  rw [getD_map_coeff (fun x => dispersion b x ^ 2) xs i hi]
  rw [np_gradient_getD ps dx i hp, np_gradient_sq_getD ps dx i hp]
  unfold spec_L_entry drift dispersion
  ring

theorem getD_replicate_zero (n i : ℕ) : (List.replicate n (0:ℚ)).getD i 0 = 0 := by
  rw [List.getD_eq_getElem?_getD, List.getElem?_replicate]
  split <;> rfl

theorem specDeriv_of_zero (ps : List ℚ) (dx : ℚ) (i : ℕ)
    (h0 : ∀ j, ps.getD j 0 = 0) : specDeriv ps dx i = 0 := by
  unfold specDeriv
  split_ifs <;> rw [h0, h0] <;> simp

theorem specDeriv2_of_zero (ps : List ℚ) (dx : ℚ) (i : ℕ)
    (h0 : ∀ j, ps.getD j 0 = 0) : specDeriv2 ps dx i = 0 := by
  unfold specDeriv2
  apply specDeriv_of_zero
  intro j
  by_cases hj : j < ps.length
  · rw [ofFn_getD _ j hj]
    exact specDeriv_of_zero ps dx j h0
  · rw [List.getD_eq_getElem?_getD, List.getElem?_eq_none (by simpa using Nat.le_of_not_lt hj)]
    rfl

theorem euler_eq_step (a b : ℚ) (xs : List ℚ) (dx dt : ℚ) (ps : List ℚ) :
    euler a b xs dx dt ps = vadd ps (smul dt (fpk_operator a b xs dx ps)) := by
  unfold euler smul
  exact congrArg _ (List.map_congr_left fun v _ => mul_comm v dt)

theorem solve_fpk_loop_length (a b : ℚ) (xs : List ℚ) (dx dt : ℚ) :
    ∀ (T : ℕ) (ps : List ℚ), (solve_fpk_loop a b xs dx dt T ps).length = T := by
  intro T
  induction T with
  | zero => intro ps; rfl
  | succ k ih => intro ps; simp [solve_fpk_loop, ih]

theorem solver_run_p0 (a b : ℚ) (xs : List ℚ) (dx dt : ℚ) :
    ∀ (T : ℕ) (st : SolverState), (solver_run a b xs dx dt T st).p0 = st.p0 := by
  intro T
  induction T with
  | zero => intro st; rfl
  | succ k ih => intro st; rw [solver_run, ih, solver_step]

theorem solver_run_pdfs (a b : ℚ) (xs : List ℚ) (dx dt : ℚ) :
    ∀ (T : ℕ) (st : SolverState),
      (solver_run a b xs dx dt T st).pdfs = st.pdfs ++ solve_fpk_loop a b xs dx dt T st.ps := by
  intro T
  induction T with
  | zero => intro st; simp [solver_run, solve_fpk_loop]
  | succ k ih => intro st; rw [solver_run, ih, solver_step]; simp [solve_fpk_loop]

/-! ## Claims -/

/-- Claim C1: for every density vector `p` of length `N`, the operator
evaluation returns the vector
`L[p] = −(drift'(x)·p + drift(x)·p') + ½(γ''(x)·p + 2γ'(x)·p' + γ(x)·p'')` at
each grid point, where `γ(x) = dispersion(x)²`, `p'` is the gradient of `p`
(central differences at interior points, one-sided at the two boundary
points) and `p''` is that same gradient scheme applied twice in sequence; the
result has the same length `N` as the input. -/
theorem claim_C1_operator_formula (a b : ℚ) (xs : List ℚ) (dx : ℚ) (ps : List ℚ)
    (h : ps.length = xs.length) :
    (fpk_operator a b xs dx ps).length = ps.length ∧
    ∀ i < xs.length, (fpk_operator a b xs dx ps).getD i 0 = spec_L_entry a b xs dx ps i :=
  ⟨by rw [fpk_operator_length a b xs dx ps h, h], fun i hi => fpk_operator_getD a b xs dx ps h i hi⟩

/-- Witness for C1 at a concrete grid and density. -/
theorem claim_C1_operator_formula_witness :
    (fpk_operator 1 1 [0, 1, 2] 1 [1, 2, 3]).length = [(1:ℚ), 2, 3].length ∧
    ∀ i < [(0:ℚ), 1, 2].length,
      (fpk_operator 1 1 [0, 1, 2] 1 [1, 2, 3]).getD i 0 = spec_L_entry 1 1 [0, 1, 2] 1 [1, 2, 3] i :=
  claim_C1_operator_formula 1 1 [0, 1, 2] 1 [1, 2, 3] rfl

/-- Claim C4: the operator annihilates the all-zero density vector, for every
drift/dispersion coefficient pair. -/
theorem claim_C4_zero_density (a b : ℚ) (xs : List ℚ) (dx : ℚ) :
    fpk_operator a b xs dx (List.replicate xs.length 0) = List.replicate xs.length 0 := by
  have hlen : (List.replicate xs.length (0:ℚ)).length = xs.length := List.length_replicate _ _
  apply List.ext_getElem
  · rw [fpk_operator_length a b xs dx _ hlen, List.length_replicate]
  · intro n h1 h2
    have hn : n < xs.length := by
      rw [List.length_replicate] at h2; exact h2
    rw [← List.getD_eq_getElem _ 0 h1, ← List.getD_eq_getElem _ 0 h2,
      fpk_operator_getD a b xs dx _ hlen n hn, getD_replicate_zero]
    unfold spec_L_entry
    rw [specDeriv_of_zero _ _ _ (fun j => getD_replicate_zero _ j),
      specDeriv2_of_zero _ _ _ (fun j => getD_replicate_zero _ j),
      getD_replicate_zero]
    ring

/-- Claim C5: the integrator with `T = 0` returns an empty history; with
`T = 1` it returns a one-element history whose single element is
`p0 + dt ⬝ L[p0]` exactly. -/
theorem claim_C5_first_steps (a b : ℚ) (xs : List ℚ) (dx dt : ℚ) (p0 : List ℚ) :
    solve_fpk a b xs dx dt 0 p0 = [] ∧
    solve_fpk a b xs dx dt 1 p0 = [vadd p0 (smul dt (fpk_operator a b xs dx p0))] := by
  exact ⟨rfl, by rw [solve_fpk, solve_fpk_loop, solve_fpk_loop, euler_eq_step]⟩

/-- Claim C8: the integrator performs all `T` steps unconditionally and
returns a history of exactly `T` vectors for every input; being a total
function of its inputs, it cannot raise or stop early based on the density
values. -/
theorem claim_C8_unconditional_steps (a b : ℚ) (xs : List ℚ) (dx dt : ℚ) (T : ℕ)
    (p0 : List ℚ) : (solve_fpk a b xs dx dt T p0).length = T :=
  solve_fpk_loop_length a b xs dx dt T p0

/-- Claim C9: two runs of the integrator on identical inputs produce identical
histories (the embedded core is a pure function with no source of
randomness). -/
theorem claim_C9_deterministic (a b : ℚ) (xs : List ℚ) (dx dt : ℚ) (T : ℕ)
    (p0 q0 : List ℚ) (h : p0 = q0) :
    solve_fpk a b xs dx dt T p0 = solve_fpk a b xs dx dt T q0 := by
  rw [h]

/-- Witness for C9: a pair of concrete identical runs. -/
theorem claim_C9_deterministic_witness :
    solve_fpk 1 1 [0, 1, 2] 1 (1 / 2) 2 [1, 2, 3] = solve_fpk 1 1 [0, 1, 2] 1 (1 / 2) 2 [1, 2, 3] :=
  claim_C9_deterministic 1 1 [0, 1, 2] 1 (1 / 2) 2 [1, 2, 3] [1, 2, 3] rfl

/-- Claim C10: after the run, the caller's `p0` is unchanged — the loop copies
`p0` into the working vector, rebinds only the working vector and the history
rows at every step, and never writes back into `p0`; moreover the history it
accumulates is exactly the functional `solve_fpk` history. -/
theorem claim_C10_p0_frame (a b : ℚ) (xs : List ℚ) (dx dt : ℚ) (T : ℕ) (p0 : List ℚ) :
    (solver_run a b xs dx dt T (solver_init p0)).p0 = p0 ∧
    (solver_run a b xs dx dt T (solver_init p0)).pdfs = solve_fpk a b xs dx dt T p0 := by
  refine ⟨solver_run_p0 a b xs dx dt T _, ?_⟩
  rw [solver_run_pdfs a b xs dx dt T _]
  simp [solver_init, solve_fpk]

theorem solve_fpk_loop_getD (a b : ℚ) (xs : List ℚ) (dx dt : ℚ) :
    ∀ (T j : ℕ) (ps : List ℚ), j < T →
      (solve_fpk_loop a b xs dx dt T ps).getD j [] = (euler a b xs dx dt)^[j + 1] ps := by
  intro T
  induction T with
  | zero => intro j ps hj; omega
  | succ k ih =>
    intro j ps hj
    match j with
    | 0 => rw [solve_fpk_loop]; rfl
    | Nat.succ m =>
      rw [solve_fpk_loop, List.getD_cons_succ, ih m _ (by omega),
        ← Function.iterate_succ_apply]

theorem euler_seq_eq_iterate (a b : ℚ) (xs : List ℚ) (dx dt : ℚ) (p0 : List ℚ) :
    ∀ k : ℕ, euler_seq a b xs dx dt p0 k = (euler a b xs dx dt)^[k] p0 := by
  intro k
  induction k with
  | zero => rfl
  | succ m ih =>
    rw [euler_seq, ih, ← euler_eq_step]
    exact (Function.iterate_succ_apply' _ m p0).symm

/-- Claim C2: for every initial density `p0`, step `dt` and step count `T`,
the history has exactly `T` entries and, with `p_0 = p0` and
`p_k = p_{k-1} + dt ⬝ L[p_{k-1}]`, the entry at 0-indexed position `k − 1`
equals `p_k` for `k = 1..T`; in particular `history[0] = p_1` (simulated time
`dt`), so the initial condition is not stored. -/
theorem claim_C2_history_indexing (a b : ℚ) (xs : List ℚ) (dx dt : ℚ) (T : ℕ)
    (p0 : List ℚ) (k : ℕ) (h1 : 1 ≤ k) (h2 : k ≤ T) :
    (solve_fpk a b xs dx dt T p0).length = T ∧
    (solve_fpk a b xs dx dt T p0).getD (k - 1) [] = euler_seq a b xs dx dt p0 k := by
  refine ⟨solve_fpk_loop_length a b xs dx dt T p0, ?_⟩
  rw [solve_fpk, solve_fpk_loop_getD a b xs dx dt T (k - 1) p0 (by omega),
    euler_seq_eq_iterate]
  congr 1
  omega

/-- Witness for C2 at a concrete run (`T = 2`, `k = 1`). -/
theorem claim_C2_history_indexing_witness :
    (solve_fpk 1 1 [0, 1, 2] 1 (1 / 2) 2 [1, 2, 3]).length = 2 ∧
    (solve_fpk 1 1 [0, 1, 2] 1 (1 / 2) 2 [1, 2, 3]).getD 0 [] =
      euler_seq 1 1 [0, 1, 2] 1 (1 / 2) [1, 2, 3] 1 :=
  claim_C2_history_indexing 1 1 [0, 1, 2] 1 (1 / 2) 2 [1, 2, 3] 1 (by decide) (by decide)

theorem linspace_getD (x_min x_max : ℚ) (N : ℕ) (i : ℕ) (h : i < N) :
    (linspace x_min x_max N).getD i 0
      = x_min + (i : ℚ) * ((x_max - x_min) / ((N : ℚ) - 1)) := by
  rw [linspace, ofFn_getD _ i h]

/-- Claim C3: for `x_min < x_max` and `N ≥ 3` the grid builder succeeds and
returns exactly `N` points, with `point[0] = x_min`, `point[N−1] = x_max`,
constant consecutive spacing `dx = (x_max − x_min)/(N−1)` (which is also what
the notebook's `dx = xs[1] - xs[0]` computes), and the points strictly
increasing. -/
theorem claim_C3_grid_points (x_min x_max : ℚ) (N : ℕ) (hx : x_min < x_max) (hN : 3 ≤ N) :
    build_grid x_min x_max N = Except.ok (linspace x_min x_max N) ∧
    (linspace x_min x_max N).length = N ∧
    (linspace x_min x_max N).getD 0 0 = x_min ∧
    (linspace x_min x_max N).getD (N - 1) 0 = x_max ∧
    grid_dx x_min x_max N = (x_max - x_min) / ((N : ℚ) - 1) ∧
    (∀ i, i + 1 < N →
      (linspace x_min x_max N).getD (i + 1) 0 - (linspace x_min x_max N).getD i 0
        = (x_max - x_min) / ((N : ℚ) - 1)) ∧
    List.Pairwise (· < ·) (linspace x_min x_max N) := by
  have hN1 : (1:ℚ) ≤ (N : ℚ) - 1 := by
    have : (3:ℚ) ≤ (N : ℚ) := by exact_mod_cast hN
    linarith
  have hNne : ((N : ℚ) - 1) ≠ 0 := by linarith
  have hd : 0 < (x_max - x_min) / ((N : ℚ) - 1) := by
    apply div_pos (by linarith) (by linarith)
  refine ⟨rfl, by simp [linspace], ?_, ?_, ?_, ?_, ?_⟩
  · rw [linspace_getD x_min x_max N 0 (by omega)]
    simp
  · rw [linspace_getD x_min x_max N (N - 1) (by omega)]
    have hcast : ((N - 1 : ℕ) : ℚ) = (N : ℚ) - 1 := by
      have : 1 ≤ N := by omega
      push_cast [this]
      ring
    rw [hcast]
    field_simp
  · rw [grid_dx, linspace_getD x_min x_max N 1 (by omega),
      linspace_getD x_min x_max N 0 (by omega)]
    push_cast
    ring
  · intro i hi
    rw [linspace_getD x_min x_max N (i + 1) hi, linspace_getD x_min x_max N i (by omega)]
    push_cast
    ring
  · rw [linspace, List.pairwise_ofFn]
    intro i j hij
    have hij' : (i.val : ℚ) < (j.val : ℚ) := by exact_mod_cast hij
    have := mul_lt_mul_of_pos_right hij' hd
    linarith

/-- Witness for C3 on the concrete grid `linspace 0 1 3`. -/
theorem claim_C3_grid_points_witness :
    build_grid 0 1 3 = Except.ok (linspace 0 1 3) ∧
    (linspace 0 1 3).length = 3 ∧
    (linspace 0 1 3).getD 0 0 = 0 ∧
    (linspace 0 1 3).getD (3 - 1) 0 = 1 ∧
    grid_dx 0 1 3 = (1 - 0) / ((3 : ℚ) - 1) ∧
    (∀ i, i + 1 < 3 →
      (linspace 0 1 3).getD (i + 1) 0 - (linspace 0 1 3).getD i 0 = (1 - 0) / ((3 : ℚ) - 1)) ∧
    List.Pairwise (· < ·) (linspace 0 1 3) :=
  claim_C3_grid_points 0 1 3 (by norm_num) (by decide)

/-- Claim C6 counterexample: the notebook performs no validation at grid
construction — at `N = 2` (with a valid domain) and at `x_min = x_max` the
grid is built without any `InvalidDomainError`, directly contradicting the
claimed failure condition. -/
theorem claim_C6_counterexample :
    build_grid (-2) 6 2 = Except.ok [-2, 6] ∧ build_grid 0 0 3 = Except.ok [0, 0, 0] := by
  constructor
  · rw [build_grid]
    congr 1
    simp [linspace, List.ofFn_succ]
    norm_num
  · rw [build_grid]
    congr 1
    simp [linspace, List.ofFn_succ]

/-- Claim C6 amended: grid construction never fails — for every `x_min`,
`x_max` and `N` (including `N = 2` and `x_min = x_max`) it returns `N` points
and raises no error. -/
theorem claim_C6_amended_no_validation (x_min x_max : ℚ) (N : ℕ) :
    ∃ pts, build_grid x_min x_max N = Except.ok pts ∧ pts.length = N :=
  ⟨linspace x_min x_max N, rfl, by simp [linspace]⟩

theorem except_bind_ok (r : List ℚ) (f : List ℚ → Except FPKError (List ℚ)) :
    (Except.ok r : Except FPKError (List ℚ)) >>= f = f r := rfl

theorem except_bind_error (e : FPKError) (f : List ℚ → Except FPKError (List ℚ)) :
    (Except.error e : Except FPKError (List ℚ)) >>= f = Except.error e := rfl

theorem fpk_operator_run_ok (a b : ℚ) (xs : List ℚ) (dx : ℚ) (ps : List ℚ)
    (hN : 3 ≤ xs.length) (h : ps.length = xs.length) :
    fpk_operator_run a b xs dx ps = Except.ok (fpk_operator a b xs dx ps) := by
  have h2 : 2 ≤ ps.length := by omega
  have g1 : np_gradient_checked ps dx = Except.ok (np_gradient ps dx) := by
    rw [np_gradient_checked, if_pos h2]
  have g2 : np_gradient_checked (np_gradient ps dx) dx
      = Except.ok (np_gradient (np_gradient ps dx) dx) := by
    rw [np_gradient_checked, if_pos (by rw [np_gradient_length]; omega)]
  simp only [fpk_operator_run, g1, g2, except_bind_ok]
  simp [np_bin, np_gradient_length, length_smul, length_vneg, List.length_map,
    List.length_zipWith, h, except_bind_ok, fpk_operator, vadd, vmul, smul, vneg]

theorem fpk_operator_run_err (a b : ℚ) (xs : List ℚ) (dx : ℚ) (ps : List ℚ)
    (hN : 3 ≤ xs.length) (h : ps.length ≠ xs.length) :
    fpk_operator_run a b xs dx ps = Except.error FPKError.DimensionMismatchError := by
  by_cases h2 : 2 ≤ ps.length
  · have g1 : np_gradient_checked ps dx = Except.ok (np_gradient ps dx) := by
      rw [np_gradient_checked, if_pos h2]
    have g2 : np_gradient_checked (np_gradient ps dx) dx
        = Except.ok (np_gradient (np_gradient ps dx) dx) := by
      rw [np_gradient_checked, if_pos (by rw [np_gradient_length]; omega)]
    have hne : ¬ ((xs.map (drift a)).length = (np_gradient ps dx).length) := by
      rw [List.length_map, np_gradient_length]
      exact fun e => h e.symm
    have hx1 : ¬ ((xs.map (drift a)).length = 1) := by
      rw [List.length_map]; omega
    have hp1 : ¬ ((np_gradient ps dx).length = 1) := by
      rw [np_gradient_length]; omega
    simp only [fpk_operator_run, g1, g2, except_bind_ok]
    rw [np_bin, if_neg hne, if_neg hx1, if_neg hp1, except_bind_error]
  · have g1 : np_gradient_checked ps dx = Except.error FPKError.DimensionMismatchError := by
      rw [np_gradient_checked, if_neg h2]
    simp only [fpk_operator_run, g1, except_bind_error]

/-- Claim C7: the operator evaluation raises `DimensionMismatchError` exactly
when the density vector's length differs from the grid length `N`; on inputs
of the correct length it never fails and returns the closed arithmetic
expression `fpk_operator` (no branching on the values of `p`). Grid invariant
`N ≥ 3` assumed. -/
theorem claim_C7_length_mismatch (a b : ℚ) (xs : List ℚ) (dx : ℚ) (ps : List ℚ)
    (hN : 3 ≤ xs.length) :
    (fpk_operator_run a b xs dx ps = Except.error FPKError.DimensionMismatchError
      ↔ ps.length ≠ xs.length) ∧
    (ps.length = xs.length →
      fpk_operator_run a b xs dx ps = Except.ok (fpk_operator a b xs dx ps)) := by
  refine ⟨⟨fun he hl => ?_, fpk_operator_run_err a b xs dx ps hN⟩,
    fpk_operator_run_ok a b xs dx ps hN⟩
  rw [fpk_operator_run_ok a b xs dx ps hN hl] at he
  exact Except.noConfusion he

/-- Witness for C7: a length-2 density against a length-3 grid. -/
theorem claim_C7_length_mismatch_witness :
    (fpk_operator_run 1 1 [0, 1, 2] 1 [1, 2] = Except.error FPKError.DimensionMismatchError
      ↔ [(1:ℚ), 2].length ≠ [(0:ℚ), 1, 2].length) ∧
    ([(1:ℚ), 2].length = [(0:ℚ), 1, 2].length →
      fpk_operator_run 1 1 [0, 1, 2] 1 [1, 2]
        = Except.ok (fpk_operator 1 1 [0, 1, 2] 1 [1, 2])) :=
  claim_C7_length_mismatch 1 1 [0, 1, 2] 1 [1, 2] (by decide)
